import Mathlib

/-!
Shallow embedding of `powerLive.py` (class `PowerLive` and the CLI layer of
`BT_Software_Python`).

Modelling conventions:
* Power readings are opaque numeric payloads: the monitor never computes with
  them, only stores and forwards them, so they are modelled as `Int`.
* Timestamps (`datetime.utcnow()`) are opaque and modelled as `Nat` values
  supplied from outside at construction and at each tick.
* A Python call that can raise (reading `lst[-1]` or `lst.pop(0)` on an empty
  list, or `requests.get(...)` in `ShellyPlugS.get_load`) is modelled as an
  `Option`-valued function; `none` means the statement raised and the rest of
  the method body did not run.
* The matplotlib renderer is modelled by the snapshot (the `(x, y)` pair list)
  handed to `ln.set_data` and by an explicit event trace recording the order of
  observable effects inside one tick.
-/

/-- In-memory state of a `PowerLive` object: the four lists created in
`PowerLive.__init__` (powerLive.py lines 78-81).  `x1`/`y1` back the
full-history (unbounded) graph, `x2`/`y2` back the rolling-buffer graph. -/
structure PLState where
  x1 : List Int
  y1 : List Int
  x2 : List Int
  y2 : List Int
deriving DecidableEq

/-- Initial in-memory state built by `PowerLive.__init__` (lines 78-81):
`x1 = [0]`, `y1 = [0]`, and `x2`, `y2` pre-filled with `buffer_length + 1`
zero entries. -/
def initState (buffer_length : Nat) : PLState :=
  { x1 := [0]
    y1 := [0]
    x2 := List.replicate (buffer_length + 1) 0
    y2 := List.replicate (buffer_length + 1) 0 }

/-- `PowerLive.update_full_graph` (lines 114-117): append `x1[-1] + 1` to `x1`
and the new power value to `y1`.  Reading `x1[-1]` raises on an empty list,
hence the `Option`. -/
def update_full_graph (s : PLState) (power : Int) : Option PLState :=
  match s.x1.getLast? with
  | none => none
  | some lx => some { s with x1 := s.x1 ++ [lx + 1], y1 := s.y1 ++ [power] }

/-- `PowerLive.update_buffer_graph` (lines 124-129): `x2.pop(0)`, then append
`x2[-1] + 1` to `x2`, then `y2.pop(0)`, then append the power value to `y2`.
`pop(0)` on an empty list and `x2[-1]` on the popped-empty list raise, hence
the `Option` (those situations never occur in states reachable from
`initState` with `buffer_length >= 1`). -/
def update_buffer_graph (s : PLState) (power : Int) : Option PLState :=
  match s.x2 with
  | [] => none
  | _ :: xt =>
    match xt.getLast? with
    | none => none
    | some lx =>
      match s.y2 with
      | [] => none
      | _ :: yt => some { s with x2 := xt ++ [lx + 1], y2 := yt ++ [power] }

/-- The in-memory effect of one successful tick body: `update_full_graph`
followed by `update_buffer_graph` (lines 107-108 of `PowerLive.update`). -/
def tickMem (s : PLState) (power : Int) : Option PLState :=
  (update_full_graph s power).bind (fun s1 => update_buffer_graph s1 power)

/-- One row of the SQLite table `plug_load` `(timestamp, power, is_valid)`.
`is_valid` is modelled as the `Int` that the Python code actually passes to the
`INSERT` (`1` in `PowerLive.update`, `0` in the bootstrap insert of
`__init__`). -/
structure Row where
  timestamp : Nat
  power : Int
  is_valid : Int
deriving DecidableEq

/-- `PowerLive.send_to_sql` (lines 137-140): one `INSERT` appending one row. -/
def send_to_sql (store : List Row) (r : Row) : List Row := store ++ [r]

/-- Store initialization in `PowerLive.__init__` (lines 61-76), for a monitor
constructed with a db name: the table is created if absent (`prior` holds the
rows already in the table, `[]` for a fresh table), all rows are deleted when
`db_reset` is set, and a bootstrap row `(utcnow(), 0, 0)` is inserted. -/
def initStore (db_reset : Bool) (prior : List Row) (t0 : Nat) : List Row :=
  (if db_reset then [] else prior) ++ [⟨t0, 0, 0⟩]

/-- Combined system state: the in-memory lists plus the SQLite table rows. -/
structure SysState where
  mem : PLState
  store : List Row
deriving DecidableEq

/-- System state right after `PowerLive.__init__` with a db name configured. -/
def initSys (buffer_length : Nat) (db_reset : Bool) (prior : List Row)
    (t0 : Nat) : SysState :=
  { mem := initState buffer_length, store := initStore db_reset prior t0 }

/-- Observable effects inside one tick, in the order the corresponding source
lines run: the device read (line 104), the appends to the two views (lines
115-116 and 125-128), the `set_data`/`relim`/`autoscale_view` redraw requests
issued through `update_set_data` (line 117 for the full view, line 129 for the
buffer view), and the SQL insert (lines 109-110, 138-140). -/
inductive Event where
  | read
  | appendFull
  | renderFull
  | appendBuffer
  | renderBuffer
  | storeAppend
deriving DecidableEq

/-- `PowerLive.update` (lines 103-112) with its event trace.  `reading` is the
outcome of `self.plug.get_load()`: `none` means the HTTP request raised, in
which case the dict construction on line 104 aborts and nothing else in the
tick runs.  On success the full graph is updated and redrawn, then the buffer
graph is updated and redrawn, then (when a db name is configured) the sample
is inserted with `is_valid = 1`.  The verbose `print` has no state effect and
is not modelled. -/
def updateT (db_name : Bool) (s : SysState) (t : Nat) (reading : Option Int) :
    Option (SysState × List Event) :=
  match reading with
  | none => none
  | some p =>
    match tickMem s.mem p with
    | none => none
    | some m2 =>
      if db_name then
        some ({ mem := m2, store := send_to_sql s.store ⟨t, p, 1⟩ },
          [Event.read, Event.appendFull, Event.renderFull, Event.appendBuffer,
            Event.renderBuffer, Event.storeAppend])
      else
        some ({ mem := m2, store := s.store },
          [Event.read, Event.appendFull, Event.renderFull, Event.appendBuffer,
            Event.renderBuffer])

/-- `PowerLive.update` without the trace. -/
def update (db_name : Bool) (s : SysState) (t : Nat) (reading : Option Int) :
    Option SysState :=
  (updateT db_name s t reading).map Prod.fst

/-- The timer loop (`FuncAnimation` firing `update` once per interval): each
tick gets a timestamp and a read outcome; a tick whose read raised leaves the
state unchanged. -/
def runTicks (db_name : Bool) (s : SysState) :
    List (Nat × Option Int) → SysState
  | [] => s
  | (t, r) :: rest =>
    match update db_name s t r with
    | none => runTicks db_name s rest
    | some s' => runTicks db_name s' rest

/-- A run of successful pushes on the in-memory state only (the per-tick
in-memory effect, iterated; fails if any single push fails). -/
def runMem (s : PLState) : List Int → Option PLState
  | [] => some s
  | v :: vs => (tickMem s v).bind (fun s' => runMem s' vs)

/-- Snapshot of the rolling-buffer view as handed to the renderer:
`ln2.set_data(x2, y2)` pairs the two lists pointwise. -/
def snapshotBuf (s : PLState) : List (Int × Int) := s.x2.zip s.y2

/-- Snapshot of the full-history view as handed to the renderer:
`ln1.set_data(x1, y1)`. -/
def snapshotFull (s : PLState) : List (Int × Int) := s.x1.zip s.y1

/-- CLI validator `buffer_length_type` (powerLive.py lines 148-153): rejects a
buffer length below 2 with `argparse.ArgumentTypeError` (the `int(value)`
parse itself is abstracted away). -/
def buffer_length_type (value : Int) : Except String Int :=
  if value < 2 then
    Except.error "is an invalid positive int value, must be >= 2"
  else
    Except.ok value

/-- The list `[0, 1, ..., k-1]` as integers: the shape taken by the synthetic
x-coordinate lists. -/
def natRangeInt (k : Nat) : List Int := (List.range k).map Int.ofNat

/-- Invariant on the in-memory lists that keeps every Python list operation in
a tick well defined: it holds in `initState L` for `L >= 1` and is preserved
by every successful push. -/
def MemInv (m : PLState) : Prop := m.x1 ≠ [] ∧ 2 ≤ m.x2.length ∧ m.y2 ≠ []

/-! Helper lemmas ----------------------------------------------------------- -/

/-- Helper: a run of pushes splits across list append. -/
theorem runMem_append (s : PLState) (l1 l2 : List Int) :
    runMem s (l1 ++ l2) = (runMem s l1).bind (fun s' => runMem s' l2) := by
  induction l1 generalizing s with
  | nil => simp [runMem]
  | cons v vs ih =>
    simp only [List.cons_append, runMem]
    cases tickMem s v with
    | none => rfl
    | some s' => simp [ih]

/-- Helper: the last element of a nonempty constant list. -/
theorem getLast?_replicate_succ (n : Nat) (a : Int) :
    (List.replicate (n + 1) a).getLast? = some a := by
  rw [List.replicate_succ', List.getLast?_concat]

/-- Helper: on a list of length at least two, dropping the head keeps the last
element. -/
theorem tail_getLast? (l : List Int) (h : 2 ≤ l.length) :
    l.tail.getLast? = l.getLast? := by
  match l, h with
  | a :: b :: t, _ => simp [List.getLast?_cons_cons]

/-- Helper: explicit form of one successful combined push, under the
side conditions that make each Python list operation well defined. -/
theorem tickMem_eq (s : PLState) (w lx lb : Int)
    (h1 : s.x1.getLast? = some lx)
    (h2 : s.x2.tail.getLast? = some lb)
    (h3 : s.x2 ≠ [])
    (h4 : s.y2 ≠ []) :
    tickMem s w = some { x1 := s.x1 ++ [lx + 1], y1 := s.y1 ++ [w],
                         x2 := s.x2.tail ++ [lb + 1], y2 := s.y2.tail ++ [w] } := by
  rcases hx2 : s.x2 with _ | ⟨a, xt⟩
  · exact absurd hx2 h3
  rcases hy2 : s.y2 with _ | ⟨c, yt⟩
  · exact absurd hy2 h4
  rw [hx2] at h2
  simp only [List.tail_cons] at h2
  simp [tickMem, update_full_graph, update_buffer_graph, h1, hx2, hy2, h2]

/-- Helper: extending the integer range by one element. -/
theorem natRangeInt_succ (k : Nat) :
    natRangeInt (k + 1) = natRangeInt k ++ [Int.ofNat k] := by
  simp [natRangeInt, List.range_succ]

/-- Helper: last element of a nonempty integer range. -/
theorem natRangeInt_getLast? (k : Nat) :
    (natRangeInt (k + 1)).getLast? = some (Int.ofNat k) := by
  rw [natRangeInt_succ, List.getLast?_concat]

/-- Characterization of any run of successful pushes from the initial state,
for `buffer_length >= 1`: the run never fails; afterwards `x1` is
`[0, 1, ..., k]`, `y1` is the zero placeholder followed by the pushed values,
`x2` keeps `buffer_length + 1` entries with last entry `k`, and `y2` is the
`buffer_length + 1`-wide window at the end of the zero prefill followed by
the pushed values. -/
theorem runMem_char (L : Nat) (hL : 1 ≤ L) (ws : List Int) :
    ∃ s, runMem (initState L) ws = some s ∧
      s.x1 = natRangeInt (ws.length + 1) ∧
      s.y1 = 0 :: ws ∧
      s.x2.length = L + 1 ∧
      s.x2.getLast? = some (Int.ofNat ws.length) ∧
      s.y2 = (List.replicate (L + 1) (0 : Int) ++ ws).drop ws.length := by
  induction ws using List.reverseRecOn with
  | nil =>
    refine ⟨initState L, rfl, ?_, rfl, ?_, ?_, ?_⟩
    · show [(0 : Int)] = natRangeInt 1
      rfl
    · simp [initState]
    · simpa [initState] using getLast?_replicate_succ L 0
    · simp [initState]
  | append_singleton ws w ih =>
    obtain ⟨s, hrun, hx1, hy1, hx2len, hx2last, hy2⟩ := ih
    have hx1last : s.x1.getLast? = some (Int.ofNat ws.length) := by
      rw [hx1, natRangeInt_getLast?]
    have hx2tail : s.x2.tail.getLast? = some (Int.ofNat ws.length) := by
      rw [tail_getLast? s.x2 (by omega), hx2last]
    have hx2ne : s.x2 ≠ [] := List.ne_nil_of_length_pos (by omega)
    have hy2len : s.y2.length = L + 1 := by
      rw [hy2]
      simp only [List.length_drop, List.length_append, List.length_replicate]
      omega
    have hy2ne : s.y2 ≠ [] := List.ne_nil_of_length_pos (by omega)
    have htick := tickMem_eq s w (Int.ofNat ws.length) (Int.ofNat ws.length)
      hx1last hx2tail hx2ne hy2ne
    have hwslen : (ws ++ [w]).length = ws.length + 1 := by simp
    have hofNat : Int.ofNat ws.length + 1 = Int.ofNat (ws.length + 1) := by
      simp [Int.ofNat_succ]
    refine ⟨{ x1 := s.x1 ++ [Int.ofNat ws.length + 1], y1 := s.y1 ++ [w],
              x2 := s.x2.tail ++ [Int.ofNat ws.length + 1], y2 := s.y2.tail ++ [w] },
      ?_, ?_, ?_, ?_, ?_, ?_⟩
    · rw [runMem_append, hrun]
      simp [runMem, htick]
    · show s.x1 ++ [Int.ofNat ws.length + 1] = natRangeInt ((ws ++ [w]).length + 1)
      rw [hwslen, natRangeInt_succ, hx1, hofNat]
    · show s.y1 ++ [w] = 0 :: (ws ++ [w])
      rw [hy1]
      rfl
    · show (s.x2.tail ++ [Int.ofNat ws.length + 1]).length = L + 1
      simp only [List.length_append, List.length_tail, hx2len]
      simp
    · show (s.x2.tail ++ [Int.ofNat ws.length + 1]).getLast? =
        some (Int.ofNat (ws ++ [w]).length)
      rw [List.getLast?_concat, hwslen, hofNat]
    · show s.y2.tail ++ [w] =
        (List.replicate (L + 1) (0 : Int) ++ (ws ++ [w])).drop ((ws ++ [w]).length)
      have key : ((List.replicate (L + 1) (0 : Int) ++ ws) ++ [w]).drop (ws.length + 1) =
          (List.replicate (L + 1) (0 : Int) ++ ws).drop (ws.length + 1) ++ [w] :=
        List.drop_append_of_le_length
          (by simp only [List.length_append, List.length_replicate]; omega)
      rw [hwslen, ← List.append_assoc, key, hy2, List.tail_drop]

/-- Helper: a tick whose read raised leaves the loop state where it was. -/
theorem runTicks_cons_none (db : Bool) (s : SysState) (t : Nat) (r : Option Int)
    (rest : List (Nat × Option Int)) (h : update db s t r = none) :
    runTicks db s ((t, r) :: rest) = runTicks db s rest := by
  simp [runTicks, h]

/-- Helper: a successful tick advances the loop state. -/
theorem runTicks_cons_some (db : Bool) (s : SysState) (t : Nat) (r : Option Int)
    (rest : List (Nat × Option Int)) (s' : SysState) (h : update db s t r = some s') :
    runTicks db s ((t, r) :: rest) = runTicks db s' rest := by
  simp [runTicks, h]

/-- Helper: what a successful `update` must look like: the read succeeded, the
in-memory push succeeded, and the store gained exactly one row with
`is_valid = 1` when a db is configured. -/
theorem update_some_inv (db : Bool) (s : SysState) (t : Nat) (r : Option Int)
    (s' : SysState) (h : update db s t r = some s') :
    ∃ p m2, r = some p ∧ tickMem s.mem p = some m2 ∧
      s' = { mem := m2,
             store := if db then send_to_sql s.store ⟨t, p, 1⟩ else s.store } := by
  cases r with
  | none => simp [update, updateT] at h
  | some p =>
    cases hm : tickMem s.mem p with
    | none => simp [update, updateT, hm] at h
    | some m2 =>
      refine ⟨p, m2, rfl, hm, ?_⟩
      cases db with
      | false =>
        simp [update, updateT, hm] at h
        simp [← h]
      | true =>
        simp [update, updateT, hm] at h
        simp [← h]

/-- Helper: the invariant holds right after construction when
`buffer_length >= 1`. -/
theorem memInv_init (L : Nat) (hL : 1 ≤ L) : MemInv (initState L) := by
  refine ⟨by simp [initState], by simp [initState]; omega, by simp [initState]⟩

/-- Helper: under the invariant a push always succeeds and preserves the
invariant. -/
theorem tickMem_some (m : PLState) (hinv : MemInv m) (v : Int) :
    ∃ m', tickMem m v = some m' ∧ MemInv m' := by
  obtain ⟨h1, h2, h3⟩ := hinv
  obtain ⟨lx, hlx⟩ := Option.isSome_iff_exists.mp (List.getLast?_isSome.mpr h1)
  have htail : m.x2.tail ≠ [] := by
    apply List.ne_nil_of_length_pos
    simp only [List.length_tail]
    omega
  obtain ⟨lb, hlb⟩ := Option.isSome_iff_exists.mp (List.getLast?_isSome.mpr htail)
  have hx2ne : m.x2 ≠ [] := List.ne_nil_of_length_pos (by omega)
  refine ⟨_, tickMem_eq m v lx lb hlx hlb hx2ne h3, ?_, ?_, ?_⟩
  · simp
  · simp only [List.length_append, List.length_tail, List.length_cons,
      List.length_nil]
    omega
  · simp

/-- Helper: with a db configured, a run of the loop appends to the store
exactly one `is_valid = 1` row per tick whose read succeeded, in tick order,
and nothing else. -/
theorem runTicks_store_char (s : SysState) (hinv : MemInv s.mem)
    (inputs : List (Nat × Option Int)) :
    (runTicks true s inputs).store =
      s.store ++
        inputs.filterMap (fun i => i.2.map (fun p => (⟨i.1, p, 1⟩ : Row))) := by
  induction inputs generalizing s with
  | nil => simp [runTicks]
  | cons i rest ih =>
    obtain ⟨t, r⟩ := i
    cases r with
    | none =>
      have hu : update true s t none = none := by simp [update, updateT]
      rw [runTicks_cons_none true s t none rest hu, ih s hinv]
      simp
    | some p =>
      obtain ⟨m2, hm, hinv2⟩ := tickMem_some s.mem hinv p
      have hu : update true s t (some p) =
          some { mem := m2, store := send_to_sql s.store ⟨t, p, 1⟩ } := by
        simp [update, updateT, hm]
      rw [runTicks_cons_some true s t (some p) rest _ hu,
        ih { mem := m2, store := send_to_sql s.store ⟨t, p, 1⟩ } hinv2]
      simp [send_to_sql]

/-- Helper: with a db configured, every row a run of the loop adds to the
store carries `is_valid = 1`, whatever the starting state (no invariant
needed: a tick that fails anywhere adds nothing). -/
theorem runTicks_store_valid (s : SysState) (inputs : List (Nat × Option Int)) :
    ∃ new, (runTicks true s inputs).store = s.store ++ new ∧
      ∀ r ∈ new, r.is_valid = 1 := by
  induction inputs generalizing s with
  | nil => exact ⟨[], by simp [runTicks], by simp⟩
  | cons i rest ih =>
    obtain ⟨t, r⟩ := i
    cases hu : update true s t r with
    | none =>
      obtain ⟨new, hn1, hn2⟩ := ih s
      exact ⟨new, by rw [runTicks_cons_none true s t r rest hu, hn1], hn2⟩
    | some s' =>
      obtain ⟨p, m2, hr, hm, hs'⟩ := update_some_inv true s t r s' hu
      obtain ⟨new, hn1, hn2⟩ := ih s'
      refine ⟨⟨t, p, 1⟩ :: new, ?_, ?_⟩
      · rw [runTicks_cons_some true s t r rest s' hu, hn1, hs']
        simp [send_to_sql]
      · intro rr hrr
        rcases List.mem_cons.mp hrr with h | h
        · rw [h]
        · exact hn2 rr h

/-! Claim theorems ---------------------------------------------------------- -/

/-- C1 counterexample: at capacity 2 (the smallest allowed), after exactly
2 pushes the rolling-buffer snapshot has length 3 = capacity + 1, not the
claimed capacity: `update_buffer_graph` pops one element and appends one, so
the buffer keeps the `buffer_length + 1` entries it was constructed with
forever. -/
theorem C1_counterexample :
    (runMem (initState 2) [10, 20]).map (fun s => (snapshotBuf s).length) =
        some 3 ∧ (3 : Nat) ≠ 2 :=
  ⟨by decide, by decide⟩

/-- C1 (amended): for every capacity >= 2 and every k >= capacity + 1 pushes,
the rolling-buffer snapshot has length exactly capacity + 1 and its values
equal the last capacity + 1 pushed values in push order. -/
theorem C1_amended_window (L : Nat) (ws : List Int) (s : PLState)
    (hL : 2 ≤ L) (hk : L + 1 ≤ ws.length)
    (h : runMem (initState L) ws = some s) :
    (snapshotBuf s).length = L + 1 ∧
      (snapshotBuf s).map Prod.snd = ws.drop (ws.length - (L + 1)) := by
  obtain ⟨s0, hrun, _, _, hx2len, _, hy2⟩ := runMem_char L (by omega) ws
  rw [hrun, Option.some.injEq] at h
  subst h
  have hy2len : s0.y2.length = L + 1 := by
    rw [hy2]
    simp only [List.length_drop, List.length_append, List.length_replicate]
    omega
  have hy2win : s0.y2 = ws.drop (ws.length - (L + 1)) := by
    rw [hy2, List.drop_append_eq_append_drop,
      List.drop_eq_nil_of_le (by simp only [List.length_replicate]; omega),
      List.length_replicate, List.nil_append]
  constructor
  · simp only [snapshotBuf, List.length_zip, hx2len, hy2len, min_self]
  · rw [snapshotBuf, List.map_snd_zip s0.x2 s0.y2 (by omega), hy2win]

/-- C1 witness: capacity 2, pushes [10, 20, 30]. -/
theorem C1_witness :
    (snapshotBuf ⟨[0, 1, 2, 3], [0, 10, 20, 30], [1, 2, 3], [10, 20, 30]⟩).length
        = 2 + 1 ∧
      (snapshotBuf ⟨[0, 1, 2, 3], [0, 10, 20, 30], [1, 2, 3], [10, 20, 30]⟩).map
          Prod.snd =
        ([10, 20, 30] : List Int).drop (([10, 20, 30] : List Int).length - (2 + 1)) :=
  C1_amended_window 2 [10, 20, 30]
    ⟨[0, 1, 2, 3], [0, 10, 20, 30], [1, 2, 3], [10, 20, 30]⟩
    (by decide) (by decide) (by decide)

/-- C2 counterexample: capacity 3, pushes [10, 20, 30, 40]: the snapshot is
[(1,10),(2,20),(3,30),(4,40)] (four points, none of the pushed values yet
evicted), not the claimed [(1,20),(2,30),(3,40)]. -/
theorem C2_counterexample :
    (runMem (initState 3) [10, 20, 30, 40]).map snapshotBuf =
        some [(1, 10), (2, 20), (3, 30), (4, 40)] ∧
      ([(1, 10), (2, 20), (3, 30), (4, 40)] : List (Int × Int)) ≠
        [(1, 20), (2, 30), (3, 40)] :=
  ⟨by decide, by decide⟩

/-- C2 (amended): capacity 3, pushes [10, 20, 30, 40] in order: the
rolling-buffer snapshot is [(1,10),(2,20),(3,30),(4,40)]. -/
theorem C2_amended_scenario :
    (runMem (initState 3) [10, 20, 30, 40]).map snapshotBuf =
      some [(1, 10), (2, 20), (3, 30), (4, 40)] := by
  decide

/-- C3 counterexample: one push of value 5 yields a full-history snapshot of
length 2 with values [0, 5] (the constructor seeds the series with the point
(0, 0)), not length 1 with values [5]. -/
theorem C3_counterexample :
    (runMem (initState 2) [5]).map snapshotFull = some [(0, 0), (1, 5)] ∧
      ([(0, 0), (1, 5)] : List (Int × Int)).length ≠ 1 ∧
      ([(0, 0), (1, 5)] : List (Int × Int)).map Prod.snd ≠ [5] :=
  ⟨by decide, by decide, by decide⟩

/-- C3 (amended): after k pushes the full-history snapshot has length k + 1
and its values are the initial zero placeholder followed by all k pushed
values in push order. -/
theorem C3_amended_series (L : Nat) (ws : List Int) (s : PLState)
    (hL : 1 ≤ L) (h : runMem (initState L) ws = some s) :
    (snapshotFull s).length = ws.length + 1 ∧
      (snapshotFull s).map Prod.snd = 0 :: ws := by
  obtain ⟨s0, hrun, hx1, hy1, _, _, _⟩ := runMem_char L hL ws
  rw [hrun, Option.some.injEq] at h
  subst h
  have hx1len : s0.x1.length = ws.length + 1 := by
    rw [hx1]
    simp [natRangeInt]
  have hy1len : s0.y1.length = ws.length + 1 := by
    rw [hy1]
    simp
  constructor
  · simp only [snapshotFull, List.length_zip, hx1len, hy1len, min_self]
  · rw [snapshotFull, List.map_snd_zip s0.x1 s0.y1 (by omega), hy1]

/-- C3 witness: capacity 1, pushes [7, 8]. -/
theorem C3_witness :
    (snapshotFull ⟨[0, 1, 2], [0, 7, 8], [1, 2], [7, 8]⟩).length =
        ([7, 8] : List Int).length + 1 ∧
      (snapshotFull ⟨[0, 1, 2], [0, 7, 8], [1, 2], [7, 8]⟩).map Prod.snd =
        0 :: [7, 8] :=
  C3_amended_series 1 [7, 8] ⟨[0, 1, 2], [0, 7, 8], [1, 2], [7, 8]⟩
    (by decide) (by decide)

/-- C4: a tick whose device read raised produces no state change at all: the
tick's `update` aborts before touching `x1`, `y1`, `x2`, `y2` or the store,
and the loop continues from the unchanged state; in particular a single
failed tick by itself leaves the system state exactly where it was. -/
theorem C4_failed_read_skips_tick (db : Bool) (s : SysState) (t : Nat)
    (rest : List (Nat × Option Int)) :
    update db s t none = none ∧
      runTicks db s ((t, none) :: rest) = runTicks db s rest ∧
      runTicks db s [(t, none)] = s := by
  have h : update db s t none = none := by simp [update, updateT]
  exact ⟨h, runTicks_cons_none db s t none rest h,
    by rw [runTicks_cons_none db s t none [] h]; rfl⟩

/-- C5 counterexample: `PowerLive.__init__` performs no capacity validation:
constructing with capacity 1 (< 2) succeeds, yields the usual pre-filled
state, and pushes into it work normally. -/
theorem C5_counterexample :
    initState 1 = ⟨[0], [0], [0, 0], [0, 0]⟩ ∧
      runMem (initState 1) [7] = some ⟨[0, 1], [0, 7], [0, 1], [0, 7]⟩ :=
  ⟨by decide, by decide⟩

/-- C5 (amended): the capacity bound is enforced only by the CLI layer: the
argparse validator `buffer_length_type` rejects exactly the values below 2
(with `ArgumentTypeError`), while direct construction with capacity < 2
(e.g. 1) succeeds and the resulting monitor accepts pushes. -/
theorem C5_amended_validation (v : Int) :
    ((buffer_length_type v).isOk ↔ 2 ≤ v) ∧
      runMem (initState 1) [7] = some ⟨[0, 1], [0, 7], [0, 1], [0, 7]⟩ := by
  refine ⟨?_, by decide⟩
  unfold buffer_length_type
  split
  · simp only [Except.isOk, Except.toBool]
    constructor
    · intro h
      cases h
    · omega
  · simp only [Except.isOk, Except.toBool]
    constructor
    · intro _
      omega
    · intro _
      trivial

/-- C6 counterexample: the store state right after construction (db
configured, reset, fresh table) is reachable and already contains a row
whose validity flag is 0, namely the bootstrap row inserted by `__init__`
(line 75 passes `0` as `is_valid`). -/
theorem C6_counterexample :
    (initSys 2 true [] 0).store = [⟨0, 0, 0⟩] ∧
      ¬ ∀ r ∈ (initSys 2 true [] 0).store, r.is_valid = 1 :=
  ⟨by decide, by decide⟩

/-- C6 (amended): every row appended by a tick carries `is_valid = 1`, and
the single startup bootstrap row carries `is_valid = 0`: in every reachable
store state (construction with reset followed by any tick sequence) the head
is the zero bootstrap row and all other rows have validity 1. -/
theorem C6_amended_validity (L : Nat) (prior : List Row) (t0 : Nat)
    (inputs : List (Nat × Option Int)) :
    (runTicks true (initSys L true prior t0) inputs).store.head? =
        some ⟨t0, 0, 0⟩ ∧
      (⟨t0, 0, 0⟩ : Row).is_valid = 0 ∧
      ∀ r ∈ (runTicks true (initSys L true prior t0) inputs).store.tail,
        r.is_valid = 1 := by
  obtain ⟨new, h1, h2⟩ := runTicks_store_valid (initSys L true prior t0) inputs
  have hinit : (initSys L true prior t0).store = [⟨t0, 0, 0⟩] := by
    simp [initSys, initStore]
  rw [h1, hinit]
  exact ⟨rfl, rfl, h2⟩

/-- C7 counterexample: in the event trace of a successful tick the redraw
request for the full view (and for the buffer view) is issued before the
store append, not after it: `update` calls `update_full_graph` and
`update_buffer_graph` — each ending in `update_set_data` — and only then
`send_to_sql`.  Concretely, `renderFull` occurs among the five events
preceding the single trailing `storeAppend`. -/
theorem C7_counterexample :
    (updateT true (initSys 1 true [] 0) 1 (some 5)).map Prod.snd =
        some [Event.read, Event.appendFull, Event.renderFull,
          Event.appendBuffer, Event.renderBuffer, Event.storeAppend] ∧
      Event.renderFull ∈ ([Event.read, Event.appendFull, Event.renderFull,
          Event.appendBuffer, Event.renderBuffer] : List Event) ∧
      Event.storeAppend ∉ ([Event.read, Event.appendFull, Event.renderFull,
          Event.appendBuffer, Event.renderBuffer] : List Event) :=
  ⟨by decide, by decide, by decide⟩

/-- C7 (amended): within every successful tick with persistence configured,
the effect order is: device read, then append to the full-history series
immediately followed by its redraw request, then append to the rolling
buffer immediately followed by its redraw request, and the store append
last; the appended row is the read value with validity 1. -/
theorem C7_amended_order (s : SysState) (t : Nat) (r : Option Int)
    (s' : SysState) (tr : List Event)
    (h : updateT true s t r = some (s', tr)) :
    tr = [Event.read, Event.appendFull, Event.renderFull, Event.appendBuffer,
        Event.renderBuffer, Event.storeAppend] ∧
      ∃ p, r = some p ∧ s'.store = send_to_sql s.store ⟨t, p, 1⟩ := by
  cases r with
  | none => simp [updateT] at h
  | some p =>
    cases hm : tickMem s.mem p with
    | none => simp [updateT, hm] at h
    | some m2 =>
      simp only [updateT, hm, if_true, Option.some.injEq, Prod.mk.injEq] at h
      obtain ⟨hs, ht⟩ := h
      exact ⟨ht.symm, p, rfl, by rw [← hs]⟩

/-- C7 witness: one successful tick (read value 5) on a freshly constructed
monitor with capacity 1 and a reset store. -/
theorem C7_witness :
    ([Event.read, Event.appendFull, Event.renderFull, Event.appendBuffer,
        Event.renderBuffer, Event.storeAppend] : List Event) =
      [Event.read, Event.appendFull, Event.renderFull, Event.appendBuffer,
        Event.renderBuffer, Event.storeAppend] ∧
      ∃ p, (some 5 : Option Int) = some p ∧
        ({ mem := ⟨[0, 1], [0, 5], [0, 1], [0, 5]⟩,
           store := [⟨0, 0, 0⟩, ⟨1, 5, 1⟩] } : SysState).store =
          send_to_sql (initSys 1 true [] 0).store ⟨1, p, 1⟩ :=
  C7_amended_order (initSys 1 true [] 0) 1 (some 5)
    { mem := ⟨[0, 1], [0, 5], [0, 1], [0, 5]⟩,
      store := [⟨0, 0, 0⟩, ⟨1, 5, 1⟩] }
    [Event.read, Event.appendFull, Event.renderFull, Event.appendBuffer,
      Event.renderBuffer, Event.storeAppend]
    (by decide)

/-- C8: starting the monitor with persistence configured and reset on a
store holding prior rows empties the store, writes the single zero-valued
bootstrap row, and then appends exactly one `is_valid = 1` row per tick
whose read succeeded, in tick order. -/
theorem C8_reset_bootstrap_then_rows (L : Nat) (prior : List Row) (t0 : Nat)
    (inputs : List (Nat × Option Int)) (hL : 1 ≤ L) :
    (runTicks true (initSys L true prior t0) inputs).store =
      ⟨t0, 0, 0⟩ ::
        inputs.filterMap (fun i => i.2.map fun p => (⟨i.1, p, 1⟩ : Row)) := by
  rw [runTicks_store_char (initSys L true prior t0) (memInv_init L hL) inputs]
  simp [initSys, initStore]

/-- C8 witness: capacity 1, a store with one prior row, three ticks of which
the middle one fails its read. -/
theorem C8_witness :
    (runTicks true (initSys 1 true [⟨5, 9, 1⟩] 0)
        [(1, some 4), (2, none), (3, some 6)]).store =
      ⟨0, 0, 0⟩ ::
        ([(1, some 4), (2, none), (3, some 6)] :
            List (Nat × Option Int)).filterMap
          (fun i => i.2.map fun p => (⟨i.1, p, 1⟩ : Row)) :=
  C8_reset_bootstrap_then_rows 1 [⟨5, 9, 1⟩] 0
    [(1, some 4), (2, none), (3, some 6)] (by decide)

/-- C9: for every valid capacity and every push sequence, the newest
rolling-buffer x-coordinate after j pushes is exactly j: it starts at 0 in
the freshly constructed buffer and each push appends the previous newest
x-coordinate plus one, regardless of capacity and of the evictions
performed. -/
theorem C9_buffer_x_coords (L : Nat) (ws : List Int) (j : Nat)
    (hL : 1 ≤ L) (hj : j ≤ ws.length) :
    ∃ s, runMem (initState L) (ws.take j) = some s ∧
      s.x2.getLast? = some (Int.ofNat j) := by
  obtain ⟨s, hrun, _, _, _, hlast, _⟩ := runMem_char L hL (ws.take j)
  refine ⟨s, hrun, ?_⟩
  rwa [List.length_take, min_eq_left hj] at hlast

/-- C9 witness: capacity 1, pushes [5, 6], after the first push the newest
x-coordinate is 1. -/
theorem C9_witness :
    ∃ s, runMem (initState 1) (([5, 6] : List Int).take 1) = some s ∧
      s.x2.getLast? = some (Int.ofNat 1) :=
  C9_buffer_x_coords 1 [5, 6] 1 (by decide) (by decide)

/-- C10: the rolling-buffer view is a fixed-size suffix window of the
full-history view: after k successful ticks with k >= capacity + 1 the
buffer values equal the last capacity + 1 values of the series, and after
every successful tick the newest x-coordinates of the two views agree and
equal the number k of ticks taken. -/
theorem C10_buffer_is_suffix_window (L : Nat) (ws : List Int) (s : PLState)
    (hL : 1 ≤ L) (h : runMem (initState L) ws = some s) :
    (L + 1 ≤ ws.length → s.y2 = s.y1.drop (s.y1.length - (L + 1))) ∧
      s.x2.getLast? = s.x1.getLast? ∧
      s.x1.getLast? = some (Int.ofNat ws.length) := by
  obtain ⟨s0, hrun, hx1, hy1, _, hx2last, hy2⟩ := runMem_char L hL ws
  rw [hrun, Option.some.injEq] at h
  subst h
  have hx1last : s0.x1.getLast? = some (Int.ofNat ws.length) := by
    rw [hx1, natRangeInt_getLast?]
  refine ⟨?_, by rw [hx2last, hx1last], hx1last⟩
  intro hk
  have hy2win : s0.y2 = ws.drop (ws.length - (L + 1)) := by
    rw [hy2, List.drop_append_eq_append_drop,
      List.drop_eq_nil_of_le (by simp only [List.length_replicate]; omega),
      List.length_replicate, List.nil_append]
  have hstep : ws.length + 1 - (L + 1) = (ws.length - (L + 1)) + 1 := by omega
  rw [hy2win, hy1]
  simp only [List.length_cons, hstep, List.drop_succ_cons]

/-- C10 witness: capacity 1, three successful ticks with values [5, 6, 7]. -/
theorem C10_witness :
    (1 + 1 ≤ ([5, 6, 7] : List Int).length →
        (⟨[0, 1, 2, 3], [0, 5, 6, 7], [2, 3], [6, 7]⟩ : PLState).y2 =
          (⟨[0, 1, 2, 3], [0, 5, 6, 7], [2, 3], [6, 7]⟩ : PLState).y1.drop
            ((⟨[0, 1, 2, 3], [0, 5, 6, 7], [2, 3], [6, 7]⟩ : PLState).y1.length -
              (1 + 1))) ∧
      (⟨[0, 1, 2, 3], [0, 5, 6, 7], [2, 3], [6, 7]⟩ : PLState).x2.getLast? =
        (⟨[0, 1, 2, 3], [0, 5, 6, 7], [2, 3], [6, 7]⟩ : PLState).x1.getLast? ∧
      (⟨[0, 1, 2, 3], [0, 5, 6, 7], [2, 3], [6, 7]⟩ : PLState).x1.getLast? =
        some (Int.ofNat ([5, 6, 7] : List Int).length) :=
  C10_buffer_is_suffix_window 1 [5, 6, 7]
    ⟨[0, 1, 2, 3], [0, 5, 6, 7], [2, 3], [6, 7]⟩ (by decide) (by decide)

